import Mathlib

/-!
Shallow embedding of the multiplayer number-guessing WebSocket server
(`src/src/main.rs`) and proofs about its session-state operations.

Modelling choices:
* Rust `HashMap<String, _>` fields are modelled as association lists
  `List (String × _)` with unique keys.  The list order of such a list
  stands for one possible iteration order of the hash map; a Rust
  `HashMap`'s iteration order is unspecified (it depends on the random
  hasher seed), so properties about iteration order are quantified over
  all permutations of the contents.
* `u32` fields are modelled as `Nat`.  Overflow is unreachable for the
  values the code produces (`current_round` is bounded by
  `max_rounds + 1 = 6` within a game and `wins` by the number of rounds),
  so no `% 2^32` reduction is needed.
* `rand::thread_rng().gen_range(1..=100)` is modelled by passing the raw
  random draw `r : Nat` as an explicit argument and taking `1 + r % 100`,
  which realises exactly the contract of `gen_range(1..=100)`: a value in
  `[1, 100]`.
* A player's `UnboundedSender<Message>` channel handle is modelled as an
  abstract `Nat` identifier; the claims only need handle replacement to be
  observable, never the transport itself.
-/

/-- Association list lookup; models `HashMap::get` on the string-keyed maps. -/
def lookupA {α : Type} (k : String) : List (String × α) → Option α
  | [] => none
  | p :: ps => if p.1 == k then some p.2 else lookupA k ps

/-- Key-membership test; models `HashMap::contains_key` / `get(..).is_some()`. -/
def containsKey {α : Type} (k : String) (l : List (String × α)) : Bool :=
  l.any (fun p => p.1 == k)

/-- replaces the value stored at key `k` wherever `k` occurs. -/
def replaceA {α : Type} (k : String) (v : α) : List (String × α) → List (String × α)
  | [] => []
  | p :: ps => (if p.1 == k then (k, v) else p) :: replaceA k v ps

/-- models `HashMap::insert`: replaces the value at an existing key in place,
otherwise adds a fresh binding. -/
def insertA {α : Type} (k : String) (v : α) (l : List (String × α)) : List (String × α) :=
  if containsKey k l then replaceA k v l else l ++ [(k, v)]

/-- models `if let Some(x) = map.get_mut(&k) { mutate x }`: applies `f` at
key `k` when present, is the identity otherwise. -/
def modifyA {α : Type} (k : String) (f : α → α) : List (String × α) → List (String × α)
  | [] => []
  | p :: ps => (if p.1 == k then (p.1, f p.2) else p) :: modifyA k f ps

/-- models `HashMap::remove(&k)` (the value is discarded by the caller; with
unique keys this is removal of the one entry for `k`). -/
def eraseA {α : Type} (k : String) : List (String × α) → List (String × α)
  | [] => []
  | p :: ps => if p.1 == k then eraseA k ps else p :: eraseA k ps

/-- `struct Player` from `main.rs` (the `sender` channel handle is abstracted
to a `Nat` identifier). -/
structure Player where
  id : String
  name : String
  sender : Nat
  wins : Nat
  active : Bool
  deriving Repr, DecidableEq

/-- `struct GameState` from `main.rs`.  `players` maps player id to `Player`;
`active_connections` maps player id to player name for live connections. -/
structure GameState where
  current_round : Nat
  secret_number : Nat
  players : List (String × Player)
  active_connections : List (String × String)
  round_active : Bool
  max_rounds : Nat
  max_players : Nat
  game_started : Bool
  deriving Repr, DecidableEq

/-- `GameState::new()`; `r` is the raw random draw used for the secret
(`gen_range(1..=100)` modelled as `1 + r % 100`). -/
def GameState.new (r : Nat) : GameState :=
  { current_round := 1
    secret_number := 1 + r % 100
    players := []
    active_connections := []
    round_active := true
    max_rounds := 5
    max_players := 4
    game_started := false }

/-- `GameState::reset_for_next_round`: increments the round, draws a fresh
secret, reactivates the round; connections and players are untouched. -/
def GameState.reset_for_next_round (gs : GameState) (r : Nat) : GameState :=
  { gs with
    current_round := gs.current_round + 1
    secret_number := 1 + r % 100
    round_active := true }

/-- `GameState::is_game_over`: `current_round > max_rounds`. -/
def GameState.is_game_over (gs : GameState) : Bool :=
  decide (gs.current_round > gs.max_rounds)

/-- `GameState::can_accept_new_connection`: new players may join only while
the connection count is below capacity, the round is 1, the game is not
over, and the round is active. -/
def GameState.can_accept_new_connection (gs : GameState) : Bool :=
  decide (gs.active_connections.length < gs.max_players) &&
  decide (gs.current_round = 1) &&
  !gs.is_game_over &&
  gs.round_active

/-- one step of the stable insertion realising Rust's stable
`sort_by(|a, b| b.1.cmp(&a.1))` (descending by the second tuple field, the
win count): `x` is placed before the first element whose win count is at
most `x`'s, so earlier elements win ties. -/
def lbInsert (x : String × Nat) : List (String × Nat) → List (String × Nat)
  | [] => [x]
  | y :: ys => if x.2 ≥ y.2 then x :: y :: ys else y :: lbInsert x ys

/-- stable descending sort by win count; models
`leaderboard.sort_by(|a, b| b.1.cmp(&a.1))` applied to the `(name, wins)`
pairs in the order `players.values()` yielded them. -/
def leaderboardOf : List (String × Nat) → List (String × Nat)
  | [] => []
  | x :: xs => lbInsert x (leaderboardOf xs)

/-- `GameState::get_leaderboard`: collects `(name, wins)` over
`players.values()` (the model's list order standing for the hash map's
iteration order) and stable-sorts descending by wins. -/
def GameState.get_leaderboard (gs : GameState) : List (String × Nat) :=
  leaderboardOf (gs.players.map (fun p => (p.2.name, p.2.wins)))

/-- `GameState::add_or_reconnect_player`.  Returns the updated state and the
`bool` the Rust method returns.  A known id always reconnects (name updated,
channel handle replaced, marked active, re-added to the connected set); an
unknown id is rejected at capacity, otherwise a fresh zero-win record is
created and connected. -/
def GameState.add_or_reconnect_player (gs : GameState) (player_id player_name : String)
    (sender : Nat) : GameState × Bool :=
  if containsKey player_id gs.players then
    ({ gs with
        players := modifyA player_id
          (fun p => { p with sender := sender, active := true, name := player_name }) gs.players
        active_connections := insertA player_id player_name gs.active_connections }, true)
  else if gs.active_connections.length ≥ gs.max_players then
    (gs, false)
  else
    ({ gs with
        players := insertA player_id
          { id := player_id, name := player_name, sender := sender, wins := 0, active := true }
          gs.players
        active_connections := insertA player_id player_name gs.active_connections }, true)

/-- `GameState::remove_active_connection`: drops the id from the connected
set and, when the id is registered, clears the player's `active` flag; the
record itself (name, wins) is kept. -/
def GameState.remove_active_connection (gs : GameState) (player_id : String) : GameState :=
  { gs with
    active_connections := eraseA player_id gs.active_connections
    players := modifyA player_id (fun p => { p with active := false }) gs.players }

/-- `GameState::get_active_player_count`. -/
def GameState.get_active_player_count (gs : GameState) : Nat :=
  gs.active_connections.length

/-- `end_game` (state effect only): `*game_state = GameState::new()`.  The
final-standings broadcast and channel closes are I/O; the session state is
discarded wholesale and replaced by a freshly initialised one, starting the
next game. -/
def end_game (r : Nat) : GameState :=
  GameState.new r

/-- the "Too low" broadcast line composed in the guess critical section. -/
def tooLowResponse (player_name : String) (guess round : Nat) : String :=
  s!"{player_name} guessed {guess} → Too low! (Round {round})"

/-- the "Too high" broadcast line composed in the guess critical section. -/
def tooHighResponse (player_name : String) (guess round : Nat) : String :=
  s!"{player_name} guessed {guess} → Too high! (Round {round})"

/-- the winning broadcast line composed in the guess critical section. -/
def winsResponse (player_name : String) (guess round : Nat) : String :=
  s!"🎉 {player_name} guessed {guess} → WINS ROUND {round}! 🎉"

/-- result of the single locked critical section at lines 292-313 of
`handle_socket`: the compared-and-possibly-won state, the response string to
broadcast, and the snapshot values the handler keeps. -/
structure ResolveResult where
  state : GameState
  response : String
  round_won : Bool
  snap_round : Nat
  game_over_after : Bool
  deriving Repr, DecidableEq

/-- the guess-resolution critical section (lines 292-313): compares the
guess to the secret; on a hit it clears `round_active` and increments the
guessing player's win count in the same step; the secret is not touched.
`round_won` is `guess == secret` and `game_over_after` is
`current_round >= max_rounds`, exactly as computed by the handler. -/
def resolve_guess (gs : GameState) (player_id player_name : String) (guess : Nat) :
    ResolveResult :=
  if guess < gs.secret_number then
    { state := gs
      response := tooLowResponse player_name guess gs.current_round
      round_won := false
      snap_round := gs.current_round
      game_over_after := decide (gs.current_round ≥ gs.max_rounds) }
  else if guess > gs.secret_number then
    { state := gs
      response := tooHighResponse player_name guess gs.current_round
      round_won := false
      snap_round := gs.current_round
      game_over_after := decide (gs.current_round ≥ gs.max_rounds) }
  else
    { state := { gs with
        round_active := false
        players := modifyA player_id (fun p => { p with wins := p.wins + 1 }) gs.players }
      response := winsResponse player_name guess gs.current_round
      round_won := true
      snap_round := gs.current_round
      game_over_after := decide (gs.current_round ≥ gs.max_rounds) }

/-- `str::parse::<u32>()` on the trimmed message text: an optional leading
`+`, then one or more ASCII digits, and the value must fit in `u32`
(a leading `-` is rejected for unsigned types). -/
def parseU32 (s : String) : Option Nat :=
  match s.data with
  | [] => none
  | c :: cs =>
    let ds := if c == '+' then cs else c :: cs
    if ds.isEmpty then none
    else if ds.all (fun d => d.isDigit) then
      let n := ds.foldl (fun a d => a * 10 + (d.toNat - 48)) 0
      if n < 4294967296 then some n else none
    else none

/-- one numbered standings line per entry, as formatted by the round-end
leaderboard loop. -/
def standingsLines (lb : List (String × Nat)) : String :=
  String.join (lb.enum.map (fun e =>
    let i := e.1
    let name := e.2.1
    let wins := e.2.2
    s!"{i + 1}. {name} - {wins} wins\n"))

/-- the round-end broadcast built by `end_round_and_start_next`. -/
def roundEndMessage (round : Nat) (lb : List (String × Nat)) : String :=
  s!"=== ROUND {round} ENDED ===\n" ++ "Current Standings:\n" ++ standingsLines lb ++
    "\nGet ready for the next round!"

/-- the round-start broadcast built by `start_next_round`. -/
def roundStartMessage (round : Nat) : String :=
  s!"🎮 ROUND {round} STARTED! 🎮\nGuess a number between 1-100!"

/-- observable outcome of one receive-loop iteration for a named player:
the session state afterwards, the private messages queued to the guessing
player's own channel, and the messages broadcast to all connected players. -/
structure GuessStep where
  state : GameState
  toSender : List String
  broadcasts : List String
  deriving Repr, DecidableEq

/-- one receive-loop iteration of `handle_socket` for an admitted, named
player (lines 274-341): round-active check, `parse::<u32>`, range check,
guess resolution, broadcast, and — when the round was won and the game is
not over — `end_round_and_start_next` (standings broadcast,
`reset_for_next_round` with fresh draw `nextSecret`, round-start
broadcast).  When the round was won and the game is over the handler breaks
out of the loop and `end_game` runs afterwards (a separate operation, since
it replaces the session for the next game). -/
def guess_step (gs : GameState) (player_id player_name input : String) (nextSecret : Nat) :
    GuessStep :=
  if !gs.round_active then
    { state := gs
      toSender := ["Round is over! Waiting for next round..."]
      broadcasts := [] }
  else
    match parseU32 input with
    | none =>
      { state := gs
        toSender := ["Invalid input. Please enter a number between 1-100"]
        broadcasts := [] }
    | some guess =>
      if guess < 1 || guess > 100 then
        { state := gs
          toSender := ["Please guess a number between 1 and 100"]
          broadcasts := [] }
      else
        if (resolve_guess gs player_id player_name guess).round_won &&
            !(resolve_guess gs player_id player_name guess).game_over_after then
          { state :=
              ((resolve_guess gs player_id player_name guess).state).reset_for_next_round
                nextSecret
            toSender := []
            broadcasts :=
              [(resolve_guess gs player_id player_name guess).response,
               roundEndMessage (resolve_guess gs player_id player_name guess).snap_round
                 ((resolve_guess gs player_id player_name guess).state).get_leaderboard,
               roundStartMessage
                 (((resolve_guess gs player_id player_name guess).state).reset_for_next_round
                   nextSecret).current_round] }
        else
          { state := (resolve_guess gs player_id player_name guess).state
            toSender := []
            broadcasts := [(resolve_guess gs player_id player_name guess).response] }

/-- the session-state operations a game serialises through the lock within
one game (admission reads are pure; `end_game` starts the next game and is
modelled separately). -/
inductive GameOp where
  | join (player_id player_name : String) (sender : Nat)
  | disconnect (player_id : String)
  | guess (player_id player_name input : String) (nextSecret : Nat)
  deriving Repr, DecidableEq

/-- state effect of one operation. -/
def applyOp (gs : GameState) : GameOp → GameState
  | .join pid pname s => (gs.add_or_reconnect_player pid pname s).1
  | .disconnect pid => gs.remove_active_connection pid
  | .guess pid pname input ns => (guess_step gs pid pname input ns).state

/-- state after a sequence of operations. -/
def applyOps (gs : GameState) (ops : List GameOp) : GameState :=
  ops.foldl applyOp gs

/-- the spec's session-state invariant: every currently connected id is a
key of the player registry. -/
def connectedSubset (gs : GameState) : Bool :=
  gs.active_connections.all (fun p => containsKey p.1 gs.players)

/-! Association-list lemmas used by the claim proofs. -/

@[simp] theorem lookupA_nil {α : Type} (k : String) :
    lookupA k ([] : List (String × α)) = none := rfl

@[simp] theorem lookupA_cons {α : Type} (k : String) (p : String × α) (ps : List (String × α)) :
    lookupA k (p :: ps) = if p.1 == k then some p.2 else lookupA k ps := rfl

@[simp] theorem containsKey_nil {α : Type} (k : String) :
    containsKey k ([] : List (String × α)) = false := rfl

@[simp] theorem containsKey_cons {α : Type} (k : String) (p : String × α)
    (ps : List (String × α)) :
    containsKey k (p :: ps) = ((p.1 == k) || containsKey k ps) := rfl

@[simp] theorem replaceA_nil {α : Type} (k : String) (v : α) :
    replaceA k v ([] : List (String × α)) = [] := rfl

@[simp] theorem replaceA_cons {α : Type} (k : String) (v : α) (p : String × α)
    (ps : List (String × α)) :
    replaceA k v (p :: ps) = (if p.1 == k then (k, v) else p) :: replaceA k v ps := rfl

@[simp] theorem modifyA_nil {α : Type} (k : String) (f : α → α) :
    modifyA k f ([] : List (String × α)) = [] := rfl

@[simp] theorem modifyA_cons {α : Type} (k : String) (f : α → α) (p : String × α)
    (ps : List (String × α)) :
    modifyA k f (p :: ps) = (if p.1 == k then (p.1, f p.2) else p) :: modifyA k f ps := rfl

@[simp] theorem eraseA_nil {α : Type} (k : String) :
    eraseA k ([] : List (String × α)) = [] := rfl

@[simp] theorem eraseA_cons {α : Type} (k : String) (p : String × α) (ps : List (String × α)) :
    eraseA k (p :: ps) = if p.1 == k then eraseA k ps else p :: eraseA k ps := rfl

theorem containsKey_of_lookupA {α : Type} {k : String} {l : List (String × α)} {v : α}
    (h : lookupA k l = some v) : containsKey k l = true := by
  induction l with
  | nil => simp at h
  | cons p ps ih =>
    by_cases hp : p.1 = k
    · simp [hp]
    · simp [hp] at h
      simp [hp, ih h]

theorem lookupA_modifyA_self {α : Type} (k : String) (f : α → α) (l : List (String × α)) :
    lookupA k (modifyA k f l) = (lookupA k l).map f := by
  induction l with
  | nil => rfl
  | cons p ps ih =>
    by_cases hp : p.1 = k
    · simp [hp]
    · simp [hp, ih]

theorem lookupA_modifyA_ne {α : Type} {k k2 : String} (hne : k2 ≠ k) (f : α → α)
    (l : List (String × α)) : lookupA k2 (modifyA k f l) = lookupA k2 l := by
  induction l with
  | nil => rfl
  | cons p ps ih =>
    by_cases hp : p.1 = k
    · have hp2 : ¬ p.1 = k2 := by rw [hp]; exact fun h => hne h.symm
      have hkk : ¬ k = k2 := fun h => hne h.symm
      simp [hp, hp2, hkk, ih]
    · by_cases hq : p.1 = k2 <;> simp [hp, hq, hne, ih]

theorem containsKey_modifyA {α : Type} (a k : String) (f : α → α) (l : List (String × α)) :
    containsKey a (modifyA k f l) = containsKey a l := by
  induction l with
  | nil => rfl
  | cons p ps ih =>
    by_cases hp : p.1 = k <;> simp [hp, ih]

theorem containsKey_replaceA {α : Type} (a k : String) (v : α) (l : List (String × α)) :
    containsKey a (replaceA k v l) = containsKey a l := by
  induction l with
  | nil => rfl
  | cons p ps ih =>
    by_cases hp : p.1 = k <;> simp [hp, ih]

theorem containsKey_append {α : Type} (k : String) (l1 l2 : List (String × α)) :
    containsKey k (l1 ++ l2) = (containsKey k l1 || containsKey k l2) := by
  simp [containsKey, List.any_append]

theorem containsKey_insertA {α : Type} (a k : String) (v : α) (l : List (String × α)) :
    containsKey a (insertA k v l) = ((k == a) || containsKey a l) := by
  unfold insertA
  by_cases hk : containsKey k l = true
  · rw [if_pos hk, containsKey_replaceA]
    by_cases ha : k = a
    · subst ha; simp [hk]
    · simp [ha]
  · rw [if_neg hk, containsKey_append]
    simp [Bool.or_comm]

theorem lookupA_replaceA_self {α : Type} {k : String} {l : List (String × α)} (v : α)
    (h : containsKey k l = true) : lookupA k (replaceA k v l) = some v := by
  induction l with
  | nil => simp at h
  | cons p ps ih =>
    by_cases hp : p.1 = k
    · simp [hp]
    · simp [hp] at h
      simp [hp, ih h]

theorem lookupA_append_right {α : Type} {k : String} {l1 : List (String × α)}
    (h : containsKey k l1 = false) (l2 : List (String × α)) :
    lookupA k (l1 ++ l2) = lookupA k l2 := by
  induction l1 with
  | nil => rfl
  | cons p ps ih =>
    simp only [containsKey_cons, Bool.or_eq_false_iff] at h
    have hp : ¬ p.1 = k := by
      intro he
      rw [he] at h
      simp at h
    simp only [List.cons_append, lookupA_cons]
    rw [if_neg (by simp [hp])]
    exact ih h.2

theorem lookupA_insertA_self {α : Type} (k : String) (v : α) (l : List (String × α)) :
    lookupA k (insertA k v l) = some v := by
  unfold insertA
  by_cases hk : containsKey k l = true
  · rw [if_pos hk]
    exact lookupA_replaceA_self v hk
  · rw [if_neg hk, lookupA_append_right (by simpa using hk)]
    simp

theorem containsKey_eraseA_self {α : Type} (k : String) (l : List (String × α)) :
    containsKey k (eraseA k l) = false := by
  induction l with
  | nil => rfl
  | cons p ps ih =>
    by_cases hp : p.1 = k <;> simp [hp, ih]

theorem lookupA_eraseA_ne {α : Type} {k k2 : String} (hne : k2 ≠ k) (l : List (String × α)) :
    lookupA k2 (eraseA k l) = lookupA k2 l := by
  induction l with
  | nil => rfl
  | cons p ps ih =>
    by_cases hp : p.1 = k
    · have hp2 : ¬ p.1 = k2 := by rw [hp]; exact fun h => hne h.symm
      have hkk : ¬ k = k2 := fun h => hne h.symm
      simp [hp, hp2, hkk, ih]
    · by_cases hq : p.1 = k2 <;> simp [hp, hq, hne, ih]

theorem mem_replaceA {α : Type} {p : String × α} {k : String} {v : α} {l : List (String × α)}
    (hp : p ∈ replaceA k v l) : p.1 = k ∨ p ∈ l := by
  induction l with
  | nil => simp at hp
  | cons q qs ih =>
    simp only [replaceA_cons] at hp
    rcases List.mem_cons.1 hp with h | h
    · by_cases hq : q.1 = k
      · simp [hq] at h
        left
        rw [h]
      · simp [hq] at h
        right
        rw [h]
        exact List.mem_cons_self q qs
    · rcases ih h with h2 | h2
      · exact Or.inl h2
      · exact Or.inr (List.mem_cons_of_mem q h2)

theorem mem_insertA {α : Type} {p : String × α} {k : String} {v : α} {l : List (String × α)}
    (hp : p ∈ insertA k v l) : p.1 = k ∨ p ∈ l := by
  unfold insertA at hp
  by_cases hk : containsKey k l = true
  · rw [if_pos hk] at hp
    exact mem_replaceA hp
  · rw [if_neg hk] at hp
    rcases List.mem_append.1 hp with h | h
    · exact Or.inr h
    · simp at h
      left
      rw [h]

theorem mem_eraseA {α : Type} {p : String × α} {k : String} {l : List (String × α)}
    (hp : p ∈ eraseA k l) : p ∈ l := by
  induction l with
  | nil => simp at hp
  | cons q qs ih =>
    by_cases hq : q.1 = k
    · simp [hq] at hp
      exact List.mem_cons_of_mem q (ih hp)
    · simp [hq] at hp
      rcases hp with h | h
      · rw [h]; exact List.mem_cons_self q qs
      · exact List.mem_cons_of_mem q (ih h)

/-! Leaderboard (stable descending sort) lemmas. -/

theorem lbInsert_perm (x : String × Nat) (l : List (String × Nat)) :
    List.Perm (lbInsert x l) (x :: l) := by
  induction l with
  | nil => exact List.Perm.refl _
  | cons y ys ih =>
    by_cases h : x.2 ≥ y.2
    · simp only [lbInsert, if_pos h]
      exact List.Perm.refl _
    · simp only [lbInsert, if_neg h]
      exact (ih.cons y).trans (List.Perm.swap x y ys)

theorem leaderboardOf_perm (l : List (String × Nat)) :
    List.Perm (leaderboardOf l) l := by
  induction l with
  | nil => exact List.Perm.refl _
  | cons x xs ih =>
    exact (lbInsert_perm x (leaderboardOf xs)).trans (ih.cons x)

theorem lbInsert_head (x : String × Nat) (l : List (String × Nat)) :
    (lbInsert x l).head? = some x ∨ (lbInsert x l).head? = l.head? := by
  cases l with
  | nil => exact Or.inl rfl
  | cons y ys =>
    by_cases h : x.2 ≥ y.2
    · simp [lbInsert, h]
    · simp [lbInsert, h]

theorem lbInsert_chain (x : String × Nat) (l : List (String × Nat))
    (h : List.Chain' (fun a b => b.2 ≤ a.2) l) :
    List.Chain' (fun a b => b.2 ≤ a.2) (lbInsert x l) := by
  induction l with
  | nil => simp [lbInsert]
  | cons y ys ih =>
    rcases List.chain'_cons'.1 h with ⟨hy, hys⟩
    by_cases hxy : x.2 ≥ y.2
    · simp only [lbInsert, if_pos hxy]
      exact List.chain'_cons'.2 ⟨fun z hz => by simp at hz; rw [← hz]; exact hxy, h⟩
    · simp only [lbInsert, if_neg hxy]
      refine List.chain'_cons'.2 ⟨?_, ih hys⟩
      intro z hz
      rcases lbInsert_head x ys with he | he
      · rw [he] at hz
        simp at hz
        rw [← hz]
        omega
      · rw [he] at hz
        exact hy z hz

theorem leaderboardOf_chain (l : List (String × Nat)) :
    List.Chain' (fun a b => b.2 ≤ a.2) (leaderboardOf l) := by
  induction l with
  | nil => simp [leaderboardOf]
  | cons x xs ih => exact lbInsert_chain x (leaderboardOf xs) ih

theorem lbInsert_filter (x : String × Nat) (w : Nat) (l : List (String × Nat)) :
    (lbInsert x l).filter (fun p => p.2 == w) =
      if x.2 = w then x :: l.filter (fun p => p.2 == w)
      else l.filter (fun p => p.2 == w) := by
  induction l with
  | nil => by_cases hx : x.2 = w <;> simp [lbInsert, List.filter_cons, hx]
  | cons y ys ih =>
    by_cases hxy : x.2 ≥ y.2
    · simp only [lbInsert, if_pos hxy, List.filter_cons]
      by_cases hx : x.2 = w <;> by_cases hy : y.2 = w <;> simp [hx, hy]
    · simp only [lbInsert, if_neg hxy, List.filter_cons, ih]
      by_cases hy : y.2 = w
      · have hx : ¬ x.2 = w := by omega
        simp [hx, hy]
      · by_cases hx : x.2 = w <;> simp [hx, hy]

theorem leaderboardOf_filter (w : Nat) (l : List (String × Nat)) :
    (leaderboardOf l).filter (fun p => p.2 == w) = l.filter (fun p => p.2 == w) := by
  induction l with
  | nil => rfl
  | cons x xs ih =>
    by_cases hx : x.2 = w
    · simp [leaderboardOf, lbInsert_filter, hx, List.filter_cons, ih]
    · simp [leaderboardOf, lbInsert_filter, hx, List.filter_cons, ih]

/-! Guess-resolution and round-transition lemmas. -/

theorem resolve_guess_cases (gs : GameState) (pid pname : String) (g : Nat) :
    (resolve_guess gs pid pname g).state = gs ∨
    (resolve_guess gs pid pname g).state =
      { gs with
        round_active := false
        players := modifyA pid (fun p => { p with wins := p.wins + 1 }) gs.players } := by
  unfold resolve_guess
  by_cases h1 : g < gs.secret_number
  · rw [if_pos h1]
    exact Or.inl rfl
  · rw [if_neg h1]
    by_cases h2 : g > gs.secret_number
    · rw [if_pos h2]
      exact Or.inl rfl
    · rw [if_neg h2]
      exact Or.inr rfl

theorem resolve_guess_game_over (gs : GameState) (pid pname : String) (g : Nat) :
    (resolve_guess gs pid pname g).game_over_after =
      decide (gs.current_round ≥ gs.max_rounds) := by
  unfold resolve_guess
  by_cases h1 : g < gs.secret_number
  · rw [if_pos h1]
  · rw [if_neg h1]
    by_cases h2 : g > gs.secret_number
    · rw [if_pos h2]
    · rw [if_neg h2]

theorem guess_step_round (gs : GameState) (pid pname input : String) (ns : Nat) :
    (guess_step gs pid pname input ns).state.max_rounds = gs.max_rounds ∧
    ((guess_step gs pid pname input ns).state.current_round = gs.current_round ∨
     ((guess_step gs pid pname input ns).state.current_round = gs.current_round + 1 ∧
      gs.current_round < gs.max_rounds)) := by
  unfold guess_step
  split
  · exact ⟨rfl, Or.inl rfl⟩
  · split
    · exact ⟨rfl, Or.inl rfl⟩
    · rename_i g hparse
      split
      · exact ⟨rfl, Or.inl rfl⟩
      · split
        · rename_i hcond
          have h2 : (resolve_guess gs pid pname g).game_over_after = false := by
            simp only [Bool.and_eq_true, Bool.not_eq_true'] at hcond
            exact hcond.2
          rw [resolve_guess_game_over] at h2
          have hlt : gs.current_round < gs.max_rounds := by
            simp only [decide_eq_false_iff_not] at h2
            omega
          rcases resolve_guess_cases gs pid pname g with h | h <;> rw [h] <;>
            exact ⟨rfl, Or.inr ⟨rfl, hlt⟩⟩
        · rcases resolve_guess_cases gs pid pname g with h | h <;> rw [h] <;>
            exact ⟨rfl, Or.inl rfl⟩

theorem add_or_reconnect_player_round (gs : GameState) (pid pname : String) (s : Nat) :
    ((gs.add_or_reconnect_player pid pname s).1).current_round = gs.current_round ∧
    ((gs.add_or_reconnect_player pid pname s).1).max_rounds = gs.max_rounds := by
  unfold GameState.add_or_reconnect_player
  split
  · exact ⟨rfl, rfl⟩
  · split
    · exact ⟨rfl, rfl⟩
    · exact ⟨rfl, rfl⟩

theorem applyOp_round (gs : GameState) (op : GameOp) :
    (applyOp gs op).max_rounds = gs.max_rounds ∧
    ((applyOp gs op).current_round = gs.current_round ∨
     ((applyOp gs op).current_round = gs.current_round + 1 ∧
      gs.current_round < gs.max_rounds)) := by
  cases op with
  | join pid pname s =>
    have h := add_or_reconnect_player_round gs pid pname s
    exact ⟨h.2, Or.inl h.1⟩
  | disconnect pid => exact ⟨rfl, Or.inl rfl⟩
  | guess pid pname input ns => exact guess_step_round gs pid pname input ns

/-! Connected-ids-subset-of-registry preservation lemmas. -/

theorem connectedSubset_iff (gs : GameState) :
    connectedSubset gs = true ↔
      ∀ p ∈ gs.active_connections, containsKey p.1 gs.players = true := by
  simp [connectedSubset, List.all_eq_true]

theorem connectedSubset_join (gs : GameState) (pid pname : String) (s : Nat)
    (h : connectedSubset gs = true) :
    connectedSubset (gs.add_or_reconnect_player pid pname s).1 = true := by
  rw [connectedSubset_iff] at h
  unfold GameState.add_or_reconnect_player
  by_cases hk : containsKey pid gs.players = true
  · rw [if_pos hk, connectedSubset_iff]
    intro p hp
    rcases mem_insertA hp with he | he
    · exact (containsKey_modifyA p.1 pid _ gs.players).trans (by rw [he]; exact hk)
    · exact (containsKey_modifyA p.1 pid _ gs.players).trans (h p he)
  · rw [if_neg hk]
    by_cases hfull : gs.active_connections.length ≥ gs.max_players
    · rw [if_pos hfull, connectedSubset_iff]
      exact h
    · rw [if_neg hfull, connectedSubset_iff]
      intro p hp
      rcases mem_insertA hp with he | he
      · exact (containsKey_insertA p.1 pid _ gs.players).trans (by simp [he])
      · exact (containsKey_insertA p.1 pid _ gs.players).trans (by simp [h p he])

theorem connectedSubset_remove (gs : GameState) (pid : String)
    (h : connectedSubset gs = true) :
    connectedSubset (gs.remove_active_connection pid) = true := by
  rw [connectedSubset_iff] at h
  rw [connectedSubset_iff]
  intro p hp
  exact (containsKey_modifyA p.1 pid _ gs.players).trans (h p (mem_eraseA hp))

/-! Concrete states used by witnesses. -/

/-- a concrete session state: one registered, connected player `"p1"` named
`"Alice"` with 0 wins, secret 42, round 1 active. -/
def demoState : GameState :=
  { current_round := 1
    secret_number := 42
    players := [("p1", { id := "p1", name := "Alice", sender := 0, wins := 0, active := true })]
    active_connections := [("p1", "Alice")]
    round_active := true
    max_rounds := 5
    max_players := 4
    game_started := false }

/-- a concrete session state at capacity: four registered, connected
players, round 1 active. -/
def fullState : GameState :=
  { current_round := 1
    secret_number := 42
    players :=
      [("a", { id := "a", name := "A", sender := 1, wins := 0, active := true }),
       ("b", { id := "b", name := "B", sender := 2, wins := 0, active := true }),
       ("c", { id := "c", name := "C", sender := 3, wins := 0, active := true }),
       ("d", { id := "d", name := "D", sender := 4, wins := 0, active := true })]
    active_connections := [("a", "A"), ("b", "B"), ("c", "C"), ("d", "D")]
    round_active := true
    max_rounds := 5
    max_players := 4
    game_started := false }

/-! The claims. -/

/-- C1: when an admitted, named player's guess equals the secret number
while the round is active, the guess-resolution critical section (lines
292-313) recognises the win, sets the round-active flag to false,
increments that player's win count by exactly one, and leaves the secret
number unchanged (not regenerated), all in the same step. -/
theorem c1_correct_guess_wins_round (gs : GameState) (pid pname : String) (g : Nat)
    (p : Player) (hmem : lookupA pid gs.players = some p)
    (hactive : gs.round_active = true) (hguess : g = gs.secret_number) :
    (resolve_guess gs pid pname g).round_won = true ∧
    (resolve_guess gs pid pname g).state.round_active = false ∧
    lookupA pid (resolve_guess gs pid pname g).state.players =
      some { p with wins := p.wins + 1 } ∧
    (resolve_guess gs pid pname g).state.secret_number = gs.secret_number := by
  subst hguess
  unfold resolve_guess
  rw [if_neg (lt_irrefl _), if_neg (lt_irrefl _)]
  refine ⟨rfl, rfl, ?_, rfl⟩
  exact (lookupA_modifyA_self pid _ gs.players).trans (by rw [hmem]; rfl)

theorem c1_witness :
    (resolve_guess demoState "p1" "Alice" 42).round_won = true ∧
    (resolve_guess demoState "p1" "Alice" 42).state.round_active = false ∧
    lookupA "p1" (resolve_guess demoState "p1" "Alice" 42).state.players =
      some { id := "p1", name := "Alice", sender := 0, wins := 0 + 1, active := true } ∧
    (resolve_guess demoState "p1" "Alice" 42).state.secret_number = demoState.secret_number :=
  c1_correct_guess_wins_round demoState "p1" "Alice" 42
    { id := "p1", name := "Alice", sender := 0, wins := 0, active := true } rfl rfl rfl

/-- C2: the admission check for a brand-new connection accepts exactly when
the connected-player count is strictly below capacity, the current round is
1, the game is not over, and the round-active flag is true. -/
theorem c2_admission_iff (gs : GameState) :
    gs.can_accept_new_connection = true ↔
      (gs.active_connections.length < gs.max_players ∧ gs.current_round = 1 ∧
       gs.is_game_over = false ∧ gs.round_active = true) := by
  unfold GameState.can_accept_new_connection
  simp [Bool.and_eq_true, and_assoc]

/-- C3: for a player id already in the registry, join-or-reconnect always
returns success — with no hypothesis on the connected-player count or the
round number — updates the stored name, replaces the channel handle, marks
the player connected, re-adds the id to the connected set, and preserves
the prior win count exactly. -/
theorem c3_reconnect_always_succeeds (gs : GameState) (pid pname : String) (s : Nat)
    (p : Player) (hmem : lookupA pid gs.players = some p) :
    (gs.add_or_reconnect_player pid pname s).2 = true ∧
    lookupA pid (gs.add_or_reconnect_player pid pname s).1.players =
      some { id := p.id, name := pname, sender := s, wins := p.wins, active := true } ∧
    lookupA pid (gs.add_or_reconnect_player pid pname s).1.active_connections = some pname := by
  have hk := containsKey_of_lookupA hmem
  unfold GameState.add_or_reconnect_player
  rw [if_pos hk]
  refine ⟨rfl, ?_, ?_⟩
  · exact (lookupA_modifyA_self pid _ gs.players).trans (by rw [hmem]; rfl)
  · exact lookupA_insertA_self pid pname gs.active_connections

theorem c3_witness :
    (demoState.add_or_reconnect_player "p1" "Al" 9).2 = true ∧
    lookupA "p1" (demoState.add_or_reconnect_player "p1" "Al" 9).1.players =
      some { id := "p1", name := "Al", sender := 9, wins := 0, active := true } ∧
    lookupA "p1" (demoState.add_or_reconnect_player "p1" "Al" 9).1.active_connections =
      some "Al" :=
  c3_reconnect_always_succeeds demoState "p1" "Al" 9
    { id := "p1", name := "Alice", sender := 0, wins := 0, active := true } rfl

/-- C4: every session-state operation — initial creation, join-or-reconnect,
remove-connection, round reset, and the game reset — preserves the
invariant that the connected player ids form a subset of the registry's
keys. -/
theorem c4_connected_subset_invariant :
    (∀ r, connectedSubset (GameState.new r) = true) ∧
    (∀ gs pid pname s, connectedSubset gs = true →
      connectedSubset (GameState.add_or_reconnect_player gs pid pname s).1 = true) ∧
    (∀ gs pid, connectedSubset gs = true →
      connectedSubset (GameState.remove_active_connection gs pid) = true) ∧
    (∀ gs r, connectedSubset gs = true →
      connectedSubset (GameState.reset_for_next_round gs r) = true) ∧
    (∀ r, connectedSubset (end_game r) = true) :=
  ⟨fun _ => rfl, connectedSubset_join, connectedSubset_remove, fun _ _ h => h, fun _ => rfl⟩

theorem c4_witness :
    connectedSubset ((GameState.new 0).add_or_reconnect_player "p1" "Alice" 7).1 = true ∧
    connectedSubset (demoState.remove_active_connection "p1") = true ∧
    connectedSubset (demoState.reset_for_next_round 3) = true :=
  ⟨c4_connected_subset_invariant.2.1 (GameState.new 0) "p1" "Alice" 7 (by decide),
   c4_connected_subset_invariant.2.2.1 demoState "p1" (by decide),
   c4_connected_subset_invariant.2.2.2.1 demoState 3 (by decide)⟩

/-- C5: across any sequence of within-game operations (join/reconnect,
disconnect, guess handling with its round transition), the round number
never decreases and never exceeds max rounds + 1.  (`end_game` replaces the
session wholesale for the next game, so it delimits a game rather than
belonging to one.) -/
theorem c5_round_monotone_bounded (gs : GameState) (ops : List GameOp)
    (h : gs.current_round ≤ gs.max_rounds + 1) :
    gs.current_round ≤ (applyOps gs ops).current_round ∧
    (applyOps gs ops).current_round ≤ gs.max_rounds + 1 := by
  induction ops generalizing gs with
  | nil => exact ⟨Nat.le_refl _, h⟩
  | cons op ops ih =>
    rcases applyOp_round gs op with ⟨hm, hca⟩
    have hinv : (applyOp gs op).current_round ≤ (applyOp gs op).max_rounds + 1 := by
      rcases hca with he | ⟨he, hlt⟩ <;> omega
    have hstep := ih (applyOp gs op) hinv
    have hfold : applyOps gs (op :: ops) = applyOps (applyOp gs op) ops := rfl
    rw [hfold]
    rcases hca with he | ⟨he, hlt⟩ <;>
      exact ⟨by omega, by omega⟩

theorem c5_witness :
    (GameState.new 0).current_round ≤
      (applyOps (GameState.new 0) [GameOp.join "p1" "Alice" 0]).current_round ∧
    (applyOps (GameState.new 0) [GameOp.join "p1" "Alice" 0]).current_round ≤
      (GameState.new 0).max_rounds + 1 :=
  c5_round_monotone_bounded (GameState.new 0) [GameOp.join "p1" "Alice" 0] (by decide)

/-- C6 counterexample: the registry is a hash map, so its iteration order is
unspecified.  Take a registry holding players `a` (registered first) and
`b`, both with 1 win; `[("id-b", …), ("id-a", …)]` is a possible iteration
order of exactly those contents, and on it the leaderboard lists `b` before
`a` — the tie does not follow registration order, refuting the claim as
stated at this concrete input. -/
theorem c6_counterexample :
    GameState.get_leaderboard
        { current_round := 2
          secret_number := 10
          players :=
            [("id-b", { id := "id-b", name := "b", sender := 1, wins := 1, active := true }),
             ("id-a", { id := "id-a", name := "a", sender := 0, wins := 1, active := true })]
          active_connections := [("id-a", "a"), ("id-b", "b")]
          round_active := true
          max_rounds := 5
          max_players := 4
          game_started := false } = [("b", 1), ("a", 1)] ∧
    List.Perm ([("b", 1), ("a", 1)] : List (String × Nat)) [("a", 1), ("b", 1)] ∧
    ([("b", 1), ("a", 1)] : List (String × Nat)) ≠ [("a", 1), ("b", 1)] := by
  refine ⟨by decide, ?_, by decide⟩
  exact List.Perm.swap ("a", 1) ("b", 1) []

/-- C6 (amended): for every session state — hence for every possible hash
map iteration order of the registry — the leaderboard is sorted by win
count in descending order and holds exactly the registry's (name, wins)
entries; players with equal win counts appear in the registry's iteration
order (the sort is stable), which is unspecified and need not be the
registration order. -/
theorem c6_leaderboard_sorted_stable (gs : GameState) :
    List.Chain' (fun a b => b.2 ≤ a.2) gs.get_leaderboard ∧
    List.Perm gs.get_leaderboard (gs.players.map (fun p => (p.2.name, p.2.wins))) ∧
    ∀ w, gs.get_leaderboard.filter (fun q => q.2 == w) =
      (gs.players.map (fun p => (p.2.name, p.2.wins))).filter (fun q => q.2 == w) :=
  ⟨leaderboardOf_chain _, leaderboardOf_perm _, fun w => leaderboardOf_filter w _⟩

/-- C7: while the round is active, a message that fails to parse as an
integer draws only the private invalid-input notice, and one parsing
outside [1,100] draws only the private out-of-range notice; in both cases
nothing is broadcast and the session state is unchanged. -/
theorem c7_malformed_guess_private_only (gs : GameState) (pid pname input : String)
    (ns : Nat) (hactive : gs.round_active = true)
    (hbad : parseU32 input = none ∨ ∃ g, parseU32 input = some g ∧ (g < 1 ∨ g > 100)) :
    (guess_step gs pid pname input ns).state = gs ∧
    (guess_step gs pid pname input ns).broadcasts = [] ∧
    (guess_step gs pid pname input ns).toSender =
      (if parseU32 input = none then ["Invalid input. Please enter a number between 1-100"]
       else ["Please guess a number between 1 and 100"]) := by
  unfold guess_step
  rcases hbad with hn | ⟨g, hg, hr⟩
  · rw [hn]
    simp [hactive]
  · rw [hg]
    have hr2 : g = 0 ∨ 100 < g := by omega
    simp [hactive, hg, hr2]

theorem c7_witness :
    (guess_step demoState "p1" "Alice" "abc" 0).state = demoState ∧
    (guess_step demoState "p1" "Alice" "abc" 0).broadcasts = [] ∧
    (guess_step demoState "p1" "Alice" "abc" 0).toSender =
      (if parseU32 "abc" = none then ["Invalid input. Please enter a number between 1-100"]
       else ["Please guess a number between 1 and 100"]) :=
  c7_malformed_guess_private_only demoState "p1" "Alice" "abc" 0 rfl (Or.inl (by decide))

/-- C8: removing a registered player's connection removes the id from the
connected set and clears that player's connectivity flag, while the record
stays in the registry with name and win count untouched, and every other
id's registry entry and connection entry are untouched. -/
theorem c8_remove_connection_frame (gs : GameState) (pid : String) (p : Player)
    (hmem : lookupA pid gs.players = some p) :
    containsKey pid (gs.remove_active_connection pid).active_connections = false ∧
    lookupA pid (gs.remove_active_connection pid).players = some { p with active := false } ∧
    (∀ k, k ≠ pid →
      lookupA k (gs.remove_active_connection pid).players = lookupA k gs.players) ∧
    (∀ k, k ≠ pid →
      lookupA k (gs.remove_active_connection pid).active_connections =
        lookupA k gs.active_connections) := by
  refine ⟨containsKey_eraseA_self pid gs.active_connections, ?_, ?_, ?_⟩
  · exact (lookupA_modifyA_self pid _ gs.players).trans (by rw [hmem]; rfl)
  · intro k hk
    exact lookupA_modifyA_ne hk _ gs.players
  · intro k hk
    exact lookupA_eraseA_ne hk gs.active_connections

theorem c8_witness :
    containsKey "p1" (demoState.remove_active_connection "p1").active_connections = false ∧
    lookupA "p1" (demoState.remove_active_connection "p1").players =
      some { id := "p1", name := "Alice", sender := 0, wins := 0, active := false } ∧
    (∀ k, k ≠ "p1" →
      lookupA k (demoState.remove_active_connection "p1").players =
        lookupA k demoState.players) ∧
    (∀ k, k ≠ "p1" →
      lookupA k (demoState.remove_active_connection "p1").active_connections =
        lookupA k demoState.active_connections) :=
  c8_remove_connection_frame demoState "p1"
    { id := "p1", name := "Alice", sender := 0, wins := 0, active := true } rfl

/-- C9: the game-over handling replaces the session state by a freshly
initialised one: round 1, empty registry, empty connected set, round
active, and a secret in [1,100]. -/
theorem c9_game_reset_fresh (r : Nat) :
    (end_game r).current_round = 1 ∧ (end_game r).players = [] ∧
    (end_game r).active_connections = [] ∧ (end_game r).round_active = true ∧
    1 ≤ (end_game r).secret_number ∧ (end_game r).secret_number ≤ 100 := by
  refine ⟨rfl, rfl, rfl, rfl, ?_, ?_⟩
  · show 1 ≤ 1 + r % 100
    omega
  · show 1 + r % 100 ≤ 100
    omega

/-- C10: join-or-reconnect for an unknown id at capacity returns failure
and returns the state itself: no record is created and the connected set is
untouched. -/
theorem c10_capacity_reject_unchanged (gs : GameState) (pid pname : String) (s : Nat)
    (habs : containsKey pid gs.players = false)
    (hfull : gs.active_connections.length ≥ gs.max_players) :
    gs.add_or_reconnect_player pid pname s = (gs, false) := by
  unfold GameState.add_or_reconnect_player
  rw [if_neg (by simp [habs]), if_pos hfull]

theorem c10_witness :
    fullState.add_or_reconnect_player "e" "Eve" 5 = (fullState, false) :=
  c10_capacity_reject_unchanged fullState "e" "Eve" 5 (by decide) (by decide)
